import Mathlib

/- Verification development for the BCG contacts data pipeline.
   The Python sources in src/cleaning and src/deduplication are shallowly
   embedded below: string cell values are `List Char` (a pandas cell that
   holds NaN is `Option.none`), dataframes are lists of records, and each
   relevant pipeline function is translated into a total Lean function. -/

namespace Contacts

/- ### Python string semantics on `List Char` -/

/-- Whitespace characters recognised by Python `str.strip` and the regex
class `\s` (space, tab, newline, carriage return, vertical tab, form feed). -/
def isWs (c : Char) : Bool :=
  c == ' ' || c == '\t' || c == '\n' || c == '\r' || c == '\x0b' || c == '\x0c'

/-- Python `str.strip()`: drop whitespace from both ends. -/
def pstrip (l : List Char) : List Char :=
  ((l.dropWhile isWs).reverse.dropWhile isWs).reverse

/-- Python `str.lower()` on the ASCII data handled by the pipeline. -/
def plower (l : List Char) : List Char :=
  l.map Char.toLower

/-- Helper for `collapse`: `re.sub(r'\s+', ' ', s)` replaces each maximal
whitespace run with a single space. The flag records whether the previous
character was whitespace (so the run emits only one space). -/
def collapseAux : Bool → List Char → List Char
  | _, [] => []
  | prevWs, c :: t =>
    if isWs c then
      if prevWs then collapseAux true t else ' ' :: collapseAux true t
    else c :: collapseAux false t

/-- `re.sub(r'\s+', ' ', s)` from `normalize_value`. -/
def collapse (l : List Char) : List Char := collapseAux false l

/-- `re.sub(r'\D', '', s)`: keep only digit characters. -/
def digitsOf (l : List Char) : List Char := l.filter Char.isDigit

/-- Python `s[-n:]`: the last `n` characters. -/
def lastN (n : Nat) (l : List Char) : List Char := l.drop (l.length - n)

/-- The string "nan", the text form of a NaN cell. -/
def nanChars : List Char := ['n', 'a', 'n']

/-- `str(cell)` on a pandas cell: a NaN cell renders as "nan". -/
def cellStr : Option (List Char) → List Char
  | none => nanChars
  | some s => s

/- ### The email regex `[^@]+@[^@]+\.[^@]+` under `re.match` -/

/-- Helper for `emailMatch`: decides whether the part after the first `@`
has the shape `[^@]+\.[^@]+` as a prefix, i.e. whether some `.` occurs
after at least one non-`@` character (the flag), before any `@`, and is
followed by one more non-`@` character. -/
def scanTail : Bool → List Char → Bool
  | _, [] => false
  | bNonempty, c :: rest =>
    if c == '@' then false
    else if c == '.' && bNonempty then
      (match rest with
       | [] => false
       | d :: _ => d != '@') || scanTail true rest
    else scanTail true rest

/-- `bool(re.match(r"[^@]+@[^@]+\.[^@]+", s))`: a prefix of `s` decomposes
as nonempty-no-`@`, then `@`, then nonempty-no-`@`, then `.`, then one more
non-`@` character. Since the first chunk contains no `@`, the `@` of any
matching decomposition is the first `@` of `s`. -/
def emailMatch (l : List Char) : Bool :=
  match l.dropWhile (fun c => c != '@') with
  | [] => false
  | _ :: r => !(l.takeWhile (fun c => c != '@')).isEmpty && scanTail false r

/- ### Field Normalizer (fill_missing_contacts.py lines 8-21,
   clean_contacts.py clean_fields lines 102-114) -/

/-- `normalize_value` from src/cleaning/fill_missing_contacts.py: NaN and
the empty string map to the empty string; otherwise strip, lowercase and
collapse internal whitespace runs. -/
def normalize_value : Option (List Char) → List Char
  | none => []
  | some s => if s = [] then [] else collapse (plower (pstrip s))

/-- `normalize_phone` from src/cleaning/fill_missing_contacts.py: NaN and
the empty string map to the empty string; otherwise keep only digits and,
when at least 10 digits remain, keep the last 10. -/
def normalize_phone : Option (List Char) → List Char
  | none => []
  | some s =>
    if s = [] then []
    else if 10 ≤ (digitsOf s).length then lastN 10 (digitsOf s) else digitsOf s

/-- The email-column transform of `clean_fields` in
src/cleaning/clean_contacts.py (lines 106-107): `astype(str)` renders a
NaN cell as "nan", then strip and lowercase, then keep the value only if
it matches `[^@]+@[^@]+\.[^@]+`; otherwise the cell becomes `pd.NA`
(modelled as `none`, the pipeline's no-value representation). -/
def clean_email (cell : Option (List Char)) : Option (List Char) :=
  if emailMatch (plower (pstrip (cellStr cell)))
  then some (plower (pstrip (cellStr cell))) else none

/-- The phone-column transform of `clean_fields` in
src/cleaning/clean_contacts.py (lines 112-114): `astype(str)` renders NaN
as "nan", then `re.sub(r"\D", "", x.strip())`. -/
def clean_phone (cell : Option (List Char)) : List Char :=
  digitsOf (pstrip (cellStr cell))

/- ### Cross-Source Filler, in-memory variant
   (`fill_from_source` in src/cleaning/fill_missing_contacts.py).
   A target row carries its normalized `_name`/`_email`/`_phone` columns and,
   positionally, the values of the mapped `merged_fields` columns; a source
   row likewise carries its normalized columns and the `source_fields`
   values. Cells are plain strings (`dtype=str` plus `fillna('')`). -/

structure TRow where
  name : List Char
  email : List Char
  phone : List Char
  vals : List (List Char)
deriving DecidableEq

structure SRow where
  name : List Char
  email : List Char
  phone : List Char
  vals : List (List Char)
deriving DecidableEq

/-- The match count of fill_from_source (lines 100-112): one point per
field where the stripped target value is non-empty and the stripped source
value equals it, over name, email, phone. -/
def matchCount (t : TRow) (s : SRow) : Nat :=
  (if pstrip t.name ≠ [] ∧ pstrip s.name = pstrip t.name then 1 else 0) +
  (if pstrip t.email ≠ [] ∧ pstrip s.email = pstrip t.email then 1 else 0) +
  (if pstrip t.phone ≠ [] ∧ pstrip s.phone = pstrip t.phone then 1 else 0)

/-- Line 114: a candidate is accepted when it matches on at least 2 fields. -/
def accepted (t : TRow) (s : SRow) : Bool :=
  decide (2 ≤ matchCount t s)

/-- The lookup-index pre-filter (lines 60-94): a source row is a candidate
for a target when they share at least one non-empty normalized field. -/
def isCand (t : TRow) (s : SRow) : Bool :=
  (pstrip t.name != [] && pstrip s.name == pstrip t.name) ||
  (pstrip t.email != [] && pstrip s.email == pstrip t.email) ||
  (pstrip t.phone != [] && pstrip s.phone == pstrip t.phone)

/-- Lines 119-133: walk the zipped `(merged_fields, source_fields)` pairs;
an empty target value is replaced by the source value when the latter is
non-empty and not the text "nan". Returns the new values and whether any
field was filled. -/
def fillVals : List (List Char) → List (List Char) → List (List Char) × Bool
  | [], _ => ([], false)
  | ts, [] => (ts, false)
  | t :: ts, s :: ss =>
    if t = [] ∧ s ≠ [] ∧ s ≠ nanChars then (s :: (fillVals ts ss).1, true)
    else (t :: (fillVals ts ss).1, (fillVals ts ss).2)

/-- Lines 97-136: try each candidate; on the first accepted candidate that
actually fills at least one field, apply its fills and stop (the `break`).
An accepted candidate that fills nothing is passed over. -/
def fillRowGo (t : TRow) : List SRow → TRow × Bool
  | [] => (t, false)
  | s :: rest =>
    if accepted t s then
      if (fillVals t.vals s.vals).2 then ({ t with vals := (fillVals t.vals s.vals).1 }, true)
      else fillRowGo t rest
    else fillRowGo t rest

/-- One target row processed against the candidate set drawn from the
lookup indices. The Python candidate set is unordered; every property
proved below is independent of the candidate order. -/
def fillRow (t : TRow) (srcs : List SRow) : TRow × Bool :=
  fillRowGo t (srcs.filter (isCand t))

/-- Lines 52-53: the pre-filter keeps only target rows with at least one
empty mapped field. -/
def needsFill (t : TRow) : Bool := t.vals.any (fun v => v == [])

/-- `fill_from_source`: rows that need fill are processed against the
source rows; all other rows are untouched. (File logging and the change
log are elided; the returned rows are the observable dataset.) -/
def fill_from_source (targets : List TRow) (srcs : List SRow) : List TRow :=
  targets.map (fun t => if needsFill t then (fillRow t srcs).1 else t)

/- ### Spec-side match predicate for the Cross-Source Filler -/

/-- Modelled from the spec: the repository implements no fuzzy-name
comparison, so the spec's "fuzzy-similarity score on a 0-100
normalized-similarity scale" is modelled as the standard normalized
Levenshtein similarity. The distance is computed with a structural fuel
argument (never exhausted when fuel bounds the total length). -/
def levFuel : Nat → List Char → List Char → Nat
  | 0, xs, ys => xs.length + ys.length
  | _ + 1, [], ys => ys.length
  | _ + 1, x :: xs, [] => (x :: xs).length
  | f + 1, x :: xs, y :: ys =>
    if x = y then levFuel f xs ys
    else 1 + min (levFuel f xs (y :: ys)) (min (levFuel f (x :: xs) ys) (levFuel f xs ys))

/-- Modelled from the spec: Levenshtein edit distance. -/
def lev (xs ys : List Char) : Nat := levFuel (xs.length + ys.length) xs ys

/-- Modelled from the spec: similarity of two strings on a 0-100 scale,
`100 * (maxlen - distance) / maxlen`. -/
def fuzzySim (a b : List Char) : Nat :=
  let m := max a.length b.length
  if m = 0 then 100 else 100 * (m - lev a b) / m

/-- Modelled from the spec: name agreement is exact equality or a fuzzy
similarity of at least 90, both values non-empty. -/
def specNameAgree (a b : List Char) : Bool :=
  a != [] && b != [] && (a == b || decide (90 ≤ fuzzySim a b))

/-- Modelled from the spec: a candidate is accepted when at least two of
the three fields agree, with the fuzzy rule for the name field and exact
normalized equality for email and phone. -/
def specAccept (t : TRow) (s : SRow) : Bool :=
  decide (2 ≤
    (if specNameAgree (pstrip t.name) (pstrip s.name) then 1 else 0) +
    (if pstrip t.email ≠ [] ∧ pstrip s.email = pstrip t.email then 1 else 0) +
    (if pstrip t.phone ≠ [] ∧ pstrip s.phone = pstrip t.phone then 1 else 0))

/- ### Cross-Source Filler, large/chunked variant
   (`process_source_file_chunked` in
   src/cleaning/fill_missing_contacts_large.py, lines 107-230).
   The SQLite table `merged_data` is a list of rows carrying the stored
   normalized columns `_name`/`_email`/`_phone` and the four updatable
   columns FIRSTNAME, LASTNAME, X_EMAIL2, MOBILE. A source row carries its
   normalized columns and the raw cells of the detected source columns
   (`none` when the source file lacks that column). -/

structure DRow where
  nname : List Char
  nemail : List Char
  nphone : List Char
  first : List Char
  last : List Char
  email : List Char
  mobile : List Char
deriving DecidableEq

structure LSrcRow where
  nname : List Char
  nemail : List Char
  nphone : List Char
  vfirst : Option (List Char)
  vlast : Option (List Char)
  vemail : Option (List Char)
  vphone : Option (List Char)
deriving DecidableEq

/-- Python truthiness of `src_col and source_row.get(src_col, '')`: the
column exists and its cell is a non-empty string. -/
def optTruthy : Option (List Char) → Bool
  | none => false
  | some v => v != []

/-- Lines 147-159: the re-verification match count against a fetched row. -/
def lmatchCount (s : LSrcRow) (r : DRow) : Nat :=
  (if pstrip s.nname ≠ [] ∧ r.nname = pstrip s.nname then 1 else 0) +
  (if pstrip s.nemail ≠ [] ∧ r.nemail = pstrip s.nemail then 1 else 0) +
  (if pstrip s.nphone ≠ [] ∧ r.nphone = pstrip s.nphone then 1 else 0)

/-- Line 137: the SQL missing-data filter. -/
def hasMissing (r : DRow) : Bool :=
  r.first == [] || r.last == [] || r.email == [] || r.mobile == []

/-- Lines 169-180: fill FIRSTNAME when it is empty and the source file has
a first-name column with a non-empty cell. -/
def fillFirst (s : LSrcRow) (r : DRow) : DRow :=
  if r.first = [] ∧ optTruthy s.vfirst then { r with first := s.vfirst.getD [] } else r

/-- Lines 182-193: fill LASTNAME. -/
def fillLast (s : LSrcRow) (r : DRow) : DRow :=
  if r.last = [] ∧ optTruthy s.vlast then { r with last := s.vlast.getD [] } else r

/-- Lines 195-206: fill X_EMAIL2. -/
def fillEmail (s : LSrcRow) (r : DRow) : DRow :=
  if r.email = [] ∧ optTruthy s.vemail then { r with email := s.vemail.getD [] } else r

/-- Lines 208-219: fill MOBILE. -/
def fillMobile (s : LSrcRow) (r : DRow) : DRow :=
  if r.mobile = [] ∧ optTruthy s.vphone then { r with mobile := s.vphone.getD [] } else r

/-- Lines 165-224: the UPDATE applied to one matched row. -/
def lapplyFills (s : LSrcRow) (r : DRow) : DRow :=
  fillMobile s (fillEmail s (fillLast s (fillFirst s r)))

/-- Number of WHERE conditions built at lines 116-127: one per non-empty
stripped source field. -/
def condCount (s : LSrcRow) : Nat :=
  (if pstrip s.nname ≠ [] then 1 else 0) +
  (if pstrip s.nemail ≠ [] then 1 else 0) +
  (if pstrip s.nphone ≠ [] then 1 else 0)

/-- Processing of one source row (lines 107-225): skip when all normalized
fields are empty or fewer than two WHERE conditions exist; otherwise every
table row matching the OR of the conditions and still having a missing
column is re-checked for at least two field matches and then updated. -/
def largeFillOne (s : LSrcRow) (db : List DRow) : List DRow :=
  if pstrip s.nname = [] ∧ pstrip s.nemail = [] ∧ pstrip s.nphone = [] then db
  else if condCount s < 2 then db
  else
    db.map fun r =>
      if ((pstrip s.nname ≠ [] ∧ r.nname = pstrip s.nname) ∨
          (pstrip s.nemail ≠ [] ∧ r.nemail = pstrip s.nemail) ∨
          (pstrip s.nphone ≠ [] ∧ r.nphone = pstrip s.nphone))
          ∧ hasMissing r = true ∧ 2 ≤ lmatchCount s r
      then lapplyFills s r else r

/-- One fill pass of the large variant: the source rows are processed in
file order, each against the progressively updated table. -/
def largeFill (srcs : List LSrcRow) (db : List DRow) : List DRow :=
  srcs.foldl (fun d s => largeFillOne s d) db

/- ### Merge Engine (`deduplicate_contacts` in
   src/cleaning/clean_contacts.py, lines 158-225).
   A record carries the columns used by the engine (EMAIL, FULLNAME,
   MOBILE, a pass-through ADDRESS column standing for the remaining
   columns) plus LAST_UPDATED already parsed by `pd.to_datetime` with
   `errors="coerce"` (`none` is NaT). -/

structure CRow where
  email : Option (List Char)
  fullname : Option (List Char)
  mobile : Option (List Char)
  address : Option (List Char)
  lastUpdated : Option Nat
deriving DecidableEq

structure MRow where
  email : Option (List Char)
  fullname : Option (List Char)
  mobile : Option (List Char)
  address : Option (List Char)
  lastUpdated : Option Nat
deriving DecidableEq

/-- Lines 164-177: DEDUP_KEY is the lower-cased email when non-empty
(NaN filled with ""), else lower-cased FULLNAME, a literal "-", and
MOBILE. -/
def dedupKey (r : CRow) : List Char :=
  if plower (r.email.getD []) ≠ [] then plower (r.email.getD [])
  else plower (r.fullname.getD []) ++ '-' :: r.mobile.getD []

/-- A record with an empty merge key in the sense of the spec: no
non-empty email, no non-empty name and no non-empty phone. -/
def emptyMergeKey (r : CRow) : Prop :=
  plower (r.email.getD []) = [] ∧ plower (r.fullname.getD []) = [] ∧ r.mobile.getD [] = []

instance (r : CRow) : Decidable (emptyMergeKey r) := by
  unfold emptyMergeKey; infer_instance

/-- Strict order used by the recency sort: later timestamps first, NaT
after every parsed timestamp. -/
def tsBefore (a b : CRow) : Bool :=
  match a.lastUpdated, b.lastUpdated with
  | some x, some y => decide (y < x)
  | some _, none => true
  | _, _ => false

/-- Stable insertion into a sorted list (an element is placed before the
elements it ties with that came later in the original order). -/
def insertRow (x : CRow) : List CRow → List CRow
  | [] => [x]
  | y :: ys => if tsBefore y x then y :: insertRow x ys else x :: y :: ys

/-- The recency sort of line 184. `df.sort_values(by="LAST_UPDATED",
ascending=False)` uses the pandas default quicksort, which orders by the
key with NaT last but does not guarantee stability; a stable sort is used
here, and no theorem below depends on the order among tied timestamps. -/
def sortDedup : List CRow → List CRow
  | [] => []
  | x :: xs => insertRow x (sortDedup xs)

/-- The distinct DEDUP_KEY values. (pandas `groupby` returns them in
sorted order; first-encounter order is used here, which produces the same
groups and the same number of groups.) -/
def keyList (rows : List CRow) : List (List Char) :=
  rows.foldl (fun ks r => if dedupKey r ∈ ks then ks else ks ++ [dedupKey r]) []

/-- Line 206: the "nan-like" literals a collected value must avoid. -/
def nanLikes : List (List Char) :=
  [[], nanChars, ['N', 'o', 'n', 'e'], ['N', 'a', 'N']]

/-- Lines 202-207: the non-null, non-nan-like values of one column across
a group, in group order. -/
def collectCol (f : CRow → Option (List Char)) (g : List CRow) : List (List Char) :=
  g.filterMap fun r =>
    match f r with
    | none => none
    | some v => if v ∈ nanLikes then none else some v

/-- Python `max(vs, key=len)`: the first value of maximal length. -/
def maxByLen : List (List Char) → List Char
  | [] => []
  | v :: vs => vs.foldl (fun b w => if b.length < w.length then w else b) v

/-- Lines 209-221: a single collected value is taken as is; several
collected values resolve to the longest (first one on ties); none yield
`pd.NA`. -/
def bestVal : List (List Char) → Option (List Char)
  | [] => none
  | [v] => some v
  | v :: vs => some (maxByLen (v :: vs))

/-- The merged record of one group. (For LAST_UPDATED the collected values
are parsed timestamps, which are never nan-like; the group is sorted
most-recent first, so the first collected value is kept, matching the
first-of-ties behaviour of `max` on the equal-length rendered dates.) -/
def mergeGroup (g : List CRow) : MRow :=
  { email := bestVal (collectCol (fun r => r.email) g)
    fullname := bestVal (collectCol (fun r => r.fullname) g)
    mobile := bestVal (collectCol (fun r => r.mobile) g)
    address := bestVal (collectCol (fun r => r.address) g)
    lastUpdated := (g.filterMap (fun r => r.lastUpdated)).head? }

/-- `deduplicate_contacts`: sort by recency, group by DEDUP_KEY, merge
each group to one output record. -/
def deduplicate_contacts (rows : List CRow) : List MRow :=
  let sorted := sortDedup rows
  (keyList sorted).map fun k => mergeGroup (sorted.filter (fun r => dedupKey r == k))

/- ### Field Validator (src/cleaning/validate_fields.py).
   The column map is resolved case-insensitively once per run; `VCfg`
   records which logical columns the dataset has. A row holds the cells of
   those columns (`none` is a NaN cell; `str(cell)` renders it "nan"). -/

structure VCfg where
  hasFirst : Bool
  hasLast : Bool
  hasEmail : Bool
  hasFullname : Bool
  hasName : Bool
  hasMobile : Bool
  hasDirect : Bool
  hasHome : Bool
deriving DecidableEq

structure VRow where
  first : Option (List Char)
  last : Option (List Char)
  email : Option (List Char)
  fullname : Option (List Char)
  nameF : Option (List Char)
  mobile : Option (List Char)
  direct : Option (List Char)
  home : Option (List Char)
deriving DecidableEq

/-- `validate_email` (lines 12-15): False on NaN or the empty string, else
the regex match on the stripped text. -/
def validate_email : Option (List Char) → Bool
  | none => false
  | some s => if s = [] then false else emailMatch (pstrip s)

/-- `validate_phone` (lines 18-22) on a string cell value: an empty value
is allowed; otherwise the number of digit characters must lie between 7
and 15 inclusive. -/
def validate_phone (v : List Char) : Bool :=
  if v = [] then true
  else decide (7 ≤ (digitsOf v).length ∧ (digitsOf v).length ≤ 15)

/-- Line 64: `str(row.get(first_col, '')).strip()` when the column exists,
else the empty string. -/
def firstVal (cfg : VCfg) (r : VRow) : List Char :=
  if cfg.hasFirst then pstrip (cellStr r.first) else []

/-- Line 65. -/
def lastVal (cfg : VCfg) (r : VRow) : List Char :=
  if cfg.hasLast then pstrip (cellStr r.last) else []

/-- Line 73. -/
def emailVal (cfg : VCfg) (r : VRow) : List Char :=
  if cfg.hasEmail then pstrip (cellStr r.email) else []

/-- Lines 62-71: the display full name: first and last joined (each
already stripped) when both columns exist, else the fullname column, else
the name column, else empty. -/
def fullNameOf (cfg : VCfg) (r : VRow) : List Char :=
  if cfg.hasFirst && cfg.hasLast then
    pstrip (firstVal cfg r ++ ' ' :: lastVal cfg r)
  else if cfg.hasFullname then pstrip (cellStr r.fullname)
  else if cfg.hasName then pstrip (cellStr r.nameF)
  else []

/-- Lines 9 and 58: the phone-role columns present in the dataset, in the
fixed order MOBILE, DIRECTPHONE, HOMEPHONE, with their cells. -/
def phoneCells (cfg : VCfg) (r : VRow) : List (String × Option (List Char)) :=
  (if cfg.hasMobile then [("MOBILE", r.mobile)] else []) ++
  (if cfg.hasDirect then [("DIRECTPHONE", r.direct)] else []) ++
  (if cfg.hasHome then [("HOMEPHONE", r.home)] else [])

/-- A value that is empty or textually "nan" after lower-casing. -/
def emptyOrNan (v : List Char) : Bool :=
  v == [] || plower v == nanChars

/-- Lines 76-82: every identifying value of the row is empty or "nan". -/
def allMissing (cfg : VCfg) (r : VRow) : Bool :=
  emptyOrNan (firstVal cfg r) && emptyOrNan (lastVal cfg r) &&
  emptyOrNan (emailVal cfg r) &&
  (phoneCells cfg r).all (fun p => emptyOrNan (pstrip (cellStr p.2)))

/-- The string "nan nan". -/
def nanNanChars : List Char := ['n', 'a', 'n', ' ', 'n', 'a', 'n']

/-- Line 83: the composed display name is empty, "nan nan" or "nan". -/
def nullName (cfg : VCfg) (r : VRow) : Bool :=
  fullNameOf cfg r == [] || plower (fullNameOf cfg r) == nanNanChars ||
  plower (fullNameOf cfg r) == nanChars

/-- Lines 88-95: the required-field errors, in code order. -/
def reqErrs (cfg : VCfg) (r : VRow) : List String :=
  (if cfg.hasFirst ∧ (r.first.isNone ∨ firstVal cfg r = []) then ["Missing FIRSTNAME"] else []) ++
  (if cfg.hasLast ∧ (r.last.isNone ∨ lastVal cfg r = []) then ["Missing LASTNAME"] else []) ++
  (if cfg.hasEmail then
    (if r.email.isNone ∨ emailVal cfg r = [] then ["Missing EMAIL"] else [])
  else ["Missing EMAIL column"])

/-- Lines 98-99: the email-format error. -/
def fmtErrs (cfg : VCfg) (r : VRow) : List String :=
  if cfg.hasEmail ∧ ¬ r.email.isNone ∧ emailVal cfg r ≠ [] ∧ validate_email r.email = false
  then ["Invalid email format"] else []

/-- Lines 101-109 (presence side): some phone-role column holds a value
that is neither empty nor "nan". -/
def phonePresentB (cfg : VCfg) (r : VRow) : Bool :=
  (phoneCells cfg r).any fun p =>
    pstrip (cellStr p.2) != [] && plower (pstrip (cellStr p.2)) != nanChars

/-- Lines 101-109 (format side): one error per populated phone-role column
whose value fails `validate_phone`, in column order. -/
def phoneFmtErrs (cfg : VCfg) (r : VRow) : List String :=
  ((phoneCells cfg r).map fun p =>
    if pstrip (cellStr p.2) ≠ [] ∧ plower (pstrip (cellStr p.2)) ≠ nanChars ∧
        validate_phone (pstrip (cellStr p.2)) = false
    then ["Invalid phone in " ++ p.1] else []).flatten

/-- Line 112. -/
def missingPhoneMsg : String :=
  "Missing phone number (MOBILE, DIRECTPHONE, or HOMEPHONE)"

/-- Lines 60-116, one row: a structurally blank or null-named row is
skipped with no errors (line 85); otherwise the errors accumulate in code
order: required fields, email format, phone formats, missing phone. -/
def validateRow (cfg : VCfg) (r : VRow) : List String :=
  if allMissing cfg r || nullName cfg r then []
  else
    reqErrs cfg r ++ fmtErrs cfg r ++ phoneFmtErrs cfg r ++
    (if phonePresentB cfg r then [] else [missingPhoneMsg])

structure VErr where
  row : Nat
  name : List Char
  msgs : List String
deriving DecidableEq

/-- Rows with a non-empty error list become report entries, with the
1-based row number (line 116). -/
def allErrorsAux (cfg : VCfg) : Nat → List VRow → List VErr
  | _, [] => []
  | i, r :: rest =>
    (if validateRow cfg r = [] then [] else [⟨i + 1, fullNameOf cfg r, validateRow cfg r⟩]) ++
    allErrorsAux cfg (i + 1) rest

def allErrors (cfg : VCfg) (rows : List VRow) : List VErr :=
  allErrorsAux cfg 0 rows

/-- A prefix test on character lists. -/
def hasLead : List Char → List Char → Bool
  | [], _ => true
  | _ :: _, [] => false
  | a :: as, b :: bs => a == b && hasLead as bs

/-- A substring test on character lists. -/
def hasSub (n : List Char) : List Char → Bool
  | [] => hasLead n []
  | c :: t => hasLead n (c :: t) || hasSub n t

/-- Lines 148-153: a message is critical when its lower-cased text
contains "missing email column" or "invalid email format". -/
def isCriticalMsg (m : String) : Bool :=
  hasSub "missing email column".toList (plower m.toList) ||
  hasSub "invalid email format".toList (plower m.toList)

/-- Lines 145-153: the total number of critical messages in the report. -/
def criticalCount (es : List VErr) : Nat :=
  (es.map (fun e => e.msgs.countP (fun m => isCriticalMsg m))).sum

structure RunResult where
  report : List VErr
  success : Bool
  exitCode : Nat
deriving DecidableEq

/-- Lines 134-162 and 165-180 (happy path): the report is written, then
`main` returns False exactly when at least one critical error exists, and
`__main__` exits 0 on True and 1 on False. -/
def runValidation (cfg : VCfg) (rows : List VRow) : RunResult :=
  ⟨allErrors cfg rows, criticalCount (allErrors cfg rows) == 0,
    if criticalCount (allErrors cfg rows) == 0 then 0 else 1⟩

/- ### Concrete fixtures used by the witnesses and counterexamples -/

/-- A structurally blank record (distinct address only). -/
def b1 : CRow := ⟨none, none, none, some "12 Foo St".toList, none⟩

/-- A second structurally blank record with a different address. -/
def b2 : CRow := ⟨none, none, none, some "99 Bar Ave".toList, none⟩

/-- Target whose name differs from the candidate's only by a trailing
letter (fuzzy similarity 90) and whose email matches exactly. -/
def tC2 : TRow := ⟨"john smithe".toList, "a@x.com".toList, [], [[]]⟩

/-- Candidate for `tC2`: same email, fuzzily similar name, fillable value. -/
def sC2 : SRow := ⟨"john smith".toList, "a@x.com".toList, [], ["0499111222".toList]⟩

/-- Target sharing exactly one field (the phone) with `sOneC2`. -/
def tOneC2 : TRow := ⟨"alice brown".toList, "a@a.com".toList, "0411222333".toList, [[]]⟩

/-- Candidate sharing only the phone with `tOneC2`. -/
def sOneC2 : SRow := ⟨"bob carter".toList, "b@b.com".toList, "0411222333".toList, ["something".toList]⟩

/-- Fill target with one non-empty mapped field and one empty one. -/
def tC3 : TRow := ⟨"jane doe".toList, "j@x.com".toList, [], ["keep".toList, []]⟩

/-- Accepted candidate for `tC3` offering values for both mapped fields. -/
def sC3 : SRow := ⟨"jane doe".toList, "j@x.com".toList, [], ["clobber".toList, "0499".toList]⟩

/-- Table row of the large variant: known email and mobile, missing
FIRSTNAME and LASTNAME. -/
def dbC5 : DRow :=
  ⟨[], "a@x.com".toList, "0412345678".toList, [], [], "A@x.com".toList, "0412345678".toList⟩

/-- Source row holding only a first name (empty last-name cell). -/
def s1C5 : LSrcRow :=
  ⟨"john".toList, "a@x.com".toList, "0412345678".toList,
    some "John".toList, some [], some "A@x.com".toList, some "0412 345 678".toList⟩

/-- Source row holding only a last name (empty first-name cell). -/
def s2C5 : LSrcRow :=
  ⟨"smith".toList, "a@x.com".toList, "0412345678".toList,
    some [], some "Smith".toList, some "A@x.com".toList, some "0412 345 678".toList⟩

/-- The dataset configuration of cleaned_contacts.tsv: every resolved
column present. -/
def fullCfg : VCfg := ⟨true, true, true, true, true, true, true, true⟩

/-- A row whose only defect is an empty EMAIL cell. -/
def rowMissingEmail : VRow :=
  ⟨some "John".toList, some "Smith".toList, some [], some "John Smith".toList, none,
    some "0412345678".toList, some [], some []⟩

/-- A row whose composed display name lowers to "nan" while email and
phone are populated and valid. -/
def rowNanName : VRow :=
  ⟨some "Nan".toList, some [], some "john@x.com".toList, none, none,
    some "0412345678".toList, some [], some []⟩

/-- A row with a populated but invalid (5-digit) MOBILE value. -/
def rowBadPhone : VRow :=
  ⟨some "John".toList, some "Smith".toList, some "john@x.com".toList, none, none,
    some "12345".toList, some [], some []⟩

/- ### Helper lemmas: in-memory filler -/

lemma fillVals_keep (ts ss : List (List Char)) (j : Nat) (v : List Char)
    (hj : ts[j]? = some v) (hv : v ≠ []) :
    (fillVals ts ss).1[j]? = some v := by
  induction ts generalizing ss j with
  | nil => simp at hj
  | cons t ts ih =>
    cases ss with
    | nil => simpa [fillVals] using hj
    | cons s ss =>
      cases j with
      | zero =>
        obtain rfl : t = v := by simpa using hj
        by_cases h : t = [] ∧ s ≠ [] ∧ s ≠ nanChars
        · exact absurd h.1 hv
        · simp [fillVals, h]
      | succ j =>
        have hj' : ts[j]? = some v := by simpa using hj
        by_cases h : t = [] ∧ s ≠ [] ∧ s ≠ nanChars <;>
          simp [fillVals, h, ih ss j hj']

lemma fillRowGo_keep (t : TRow) (l : List SRow) (j : Nat) (v : List Char)
    (hj : t.vals[j]? = some v) (hv : v ≠ []) :
    (fillRowGo t l).1.vals[j]? = some v := by
  induction l with
  | nil => simpa [fillRowGo] using hj
  | cons s rest ih =>
    by_cases ha : accepted t s = true
    · by_cases hf : (fillVals t.vals s.vals).2 = true
      · simpa [fillRowGo, ha, hf] using fillVals_keep t.vals s.vals j v hj hv
      · simpa [fillRowGo, ha, hf] using ih
    · simpa [fillRowGo, ha] using ih

lemma fillRowGo_cases (t : TRow) (l : List SRow) :
    fillRowGo t l = (t, false) ∨
    ∃ s ∈ l, accepted t s = true ∧
      fillRowGo t l = ({ t with vals := (fillVals t.vals s.vals).1 }, true) := by
  induction l with
  | nil => left; rfl
  | cons s rest ih =>
    by_cases ha : accepted t s = true
    · by_cases hf : (fillVals t.vals s.vals).2 = true
      · right; exact ⟨s, by simp, ha, by simp [fillRowGo, ha, hf]⟩
      · have heq : fillRowGo t (s :: rest) = fillRowGo t rest := by
          simp [fillRowGo, ha, hf]
        rcases ih with h | ⟨s', hs', ha', h'⟩
        · left; rw [heq, h]
        · right; exact ⟨s', by simp [hs'], ha', by rw [heq, h']⟩
    · have heq : fillRowGo t (s :: rest) = fillRowGo t rest := by
        simp [fillRowGo, ha]
      rcases ih with h | ⟨s', hs', ha', h'⟩
      · left; rw [heq, h]
      · right; exact ⟨s', by simp [hs'], ha', by rw [heq, h']⟩

lemma fillRowGo_noAccept (t : TRow) (l : List SRow)
    (h : ∀ s ∈ l, accepted t s = false) : fillRowGo t l = (t, false) := by
  induction l with
  | nil => rfl
  | cons s rest ih =>
    have hs : accepted t s = false := h s (by simp)
    have hrest : fillRowGo t rest = (t, false) := ih fun s' hs' => h s' (by simp [hs'])
    simp [fillRowGo, hs, hrest]

/- ### Helper lemmas: large filler -/

/-- Field preservation between a table row and its updated version. -/
def keeps (r r' : DRow) : Prop :=
  (r.first ≠ [] → r'.first = r.first) ∧ (r.last ≠ [] → r'.last = r.last) ∧
  (r.email ≠ [] → r'.email = r.email) ∧ (r.mobile ≠ [] → r'.mobile = r.mobile)

lemma keeps_refl (r : DRow) : keeps r r :=
  ⟨fun _ => rfl, fun _ => rfl, fun _ => rfl, fun _ => rfl⟩

lemma keeps_trans {r r1 r2 : DRow} (h1 : keeps r r1) (h2 : keeps r1 r2) : keeps r r2 := by
  refine ⟨fun h => ?_, fun h => ?_, fun h => ?_, fun h => ?_⟩
  · rw [h2.1 (by rw [h1.1 h]; exact h)]; exact h1.1 h
  · rw [h2.2.1 (by rw [h1.2.1 h]; exact h)]; exact h1.2.1 h
  · rw [h2.2.2.1 (by rw [h1.2.2.1 h]; exact h)]; exact h1.2.2.1 h
  · rw [h2.2.2.2 (by rw [h1.2.2.2 h]; exact h)]; exact h1.2.2.2 h

lemma fillFirst_keep (s : LSrcRow) (r : DRow) :
    (r.first ≠ [] → (fillFirst s r).first = r.first) ∧ (fillFirst s r).last = r.last ∧
    (fillFirst s r).email = r.email ∧ (fillFirst s r).mobile = r.mobile := by
  unfold fillFirst; split <;> simp_all

lemma fillLast_keep (s : LSrcRow) (r : DRow) :
    (fillLast s r).first = r.first ∧ (r.last ≠ [] → (fillLast s r).last = r.last) ∧
    (fillLast s r).email = r.email ∧ (fillLast s r).mobile = r.mobile := by
  unfold fillLast; split <;> simp_all

lemma fillEmail_keep (s : LSrcRow) (r : DRow) :
    (fillEmail s r).first = r.first ∧ (fillEmail s r).last = r.last ∧
    (r.email ≠ [] → (fillEmail s r).email = r.email) ∧ (fillEmail s r).mobile = r.mobile := by
  unfold fillEmail; split <;> simp_all

lemma fillMobile_keep (s : LSrcRow) (r : DRow) :
    (fillMobile s r).first = r.first ∧ (fillMobile s r).last = r.last ∧
    (fillMobile s r).email = r.email ∧ (r.mobile ≠ [] → (fillMobile s r).mobile = r.mobile) := by
  unfold fillMobile; split <;> simp_all

lemma lapplyFills_keep (s : LSrcRow) (r : DRow) : keeps r (lapplyFills s r) := by
  obtain ⟨a1, a2, a3, a4⟩ := fillFirst_keep s r
  obtain ⟨b1, b2, b3, b4⟩ := fillLast_keep s (fillFirst s r)
  obtain ⟨c1, c2, c3, c4⟩ := fillEmail_keep s (fillLast s (fillFirst s r))
  obtain ⟨d1, d2, d3, d4⟩ := fillMobile_keep s (fillEmail s (fillLast s (fillFirst s r)))
  unfold lapplyFills
  refine ⟨fun h => ?_, fun h => ?_, fun h => ?_, fun h => ?_⟩
  · rw [d1, c1, b1]; exact a1 h
  · rw [d2, c2, b2 (by rw [a2]; exact h), a2]
  · rw [d3, c3 (by rw [b3, a3]; exact h), b3, a3]
  · rw [d4 (by rw [c4, b4, a4]; exact h), c4, b4, a4]

lemma largeFillOne_keep (s : LSrcRow) (db : List DRow) (i : Nat) (r : DRow)
    (h : db[i]? = some r) :
    ∃ r', (largeFillOne s db)[i]? = some r' ∧ keeps r r' := by
  unfold largeFillOne
  by_cases hA : pstrip s.nname = [] ∧ pstrip s.nemail = [] ∧ pstrip s.nphone = []
  · rw [if_pos hA]; exact ⟨r, h, keeps_refl r⟩
  · rw [if_neg hA]
    by_cases hB : condCount s < 2
    · rw [if_pos hB]; exact ⟨r, h, keeps_refl r⟩
    · rw [if_neg hB, List.getElem?_map, h, Option.map_some']
      by_cases hC : ((pstrip s.nname ≠ [] ∧ r.nname = pstrip s.nname) ∨
          (pstrip s.nemail ≠ [] ∧ r.nemail = pstrip s.nemail) ∨
          (pstrip s.nphone ≠ [] ∧ r.nphone = pstrip s.nphone))
          ∧ hasMissing r = true ∧ 2 ≤ lmatchCount s r
      · exact ⟨lapplyFills s r, by rw [if_pos hC], lapplyFills_keep s r⟩
      · exact ⟨r, by rw [if_neg hC], keeps_refl r⟩

lemma largeFill_keep (srcs : List LSrcRow) (db : List DRow) (i : Nat) (r : DRow)
    (h : db[i]? = some r) :
    ∃ r', (largeFill srcs db)[i]? = some r' ∧ keeps r r' := by
  induction srcs generalizing db r with
  | nil => exact ⟨r, h, keeps_refl r⟩
  | cons s rest ih =>
    obtain ⟨r1, h1, k1⟩ := largeFillOne_keep s db i r h
    obtain ⟨r', h', k'⟩ := ih (largeFillOne s db) r1 h1
    exact ⟨r', by simpa [largeFill] using h', keeps_trans k1 k'⟩

/- ### Helper lemmas: phone normalization -/

lemma digitsOf_digits {s : List Char} : ∀ c ∈ digitsOf s, c.isDigit = true := by
  intro c hc; exact (List.mem_filter.mp hc).2

lemma digitsOf_of_digits {s : List Char} (h : ∀ c ∈ s, c.isDigit = true) :
    digitsOf s = s :=
  List.filter_eq_self.mpr h

lemma normalize_phone_all_digits (v : Option (List Char)) :
    ∀ c ∈ normalize_phone v, c.isDigit = true := by
  cases v with
  | none => simp [normalize_phone]
  | some s =>
    by_cases hs : s = []
    · simp [normalize_phone, hs]
    · by_cases h10 : 10 ≤ (digitsOf s).length
      · simp only [normalize_phone, if_neg hs, if_pos h10]
        intro c hc
        exact digitsOf_digits _ (List.mem_of_mem_drop hc)
      · simp only [normalize_phone, if_neg hs, if_neg h10]
        exact digitsOf_digits

lemma normalize_phone_idem (v : Option (List Char)) :
    normalize_phone (some (normalize_phone v)) = normalize_phone v := by
  cases v with
  | none => rfl
  | some s =>
    by_cases hs : s = []
    · simp [normalize_phone, hs]
    · simp only [normalize_phone, if_neg hs]
      by_cases h10 : 10 ≤ (digitsOf s).length
      · rw [if_pos h10]
        have hlen : (lastN 10 (digitsOf s)).length = 10 := by
          simp only [lastN, List.length_drop]; omega
        have hne : lastN 10 (digitsOf s) ≠ [] := by
          intro h; rw [h] at hlen; simp at hlen
        have hall : ∀ c ∈ lastN 10 (digitsOf s), c.isDigit = true :=
          fun c hc => digitsOf_digits _ (List.mem_of_mem_drop hc)
        have hfix : ∀ X : List Char, X.length = 10 → lastN 10 X = X := by
          intro X hX; simp [lastN, hX]
        simp only [normalize_phone, if_neg hne, digitsOf_of_digits hall, hlen]
        rw [if_pos (by omega : 10 ≤ 10)]
        exact hfix _ hlen
      · rw [if_neg h10]
        by_cases hd : digitsOf s = []
        · rw [hd]; rfl
        · have hfil : digitsOf (digitsOf s) = digitsOf s :=
            digitsOf_of_digits (@digitsOf_digits s)
          simp only [normalize_phone, if_neg hd, hfil]
          rw [if_neg h10]

/- ### Helper lemmas: validator -/

lemma mem_reqErrs {cfg : VCfg} {r : VRow} {m : String} (h : m ∈ reqErrs cfg r) :
    m = "Missing FIRSTNAME" ∨ m = "Missing LASTNAME" ∨ m = "Missing EMAIL" ∨
    m = "Missing EMAIL column" := by
  unfold reqErrs at h
  split_ifs at h <;> simp_all <;> tauto

lemma mem_fmtErrs {cfg : VCfg} {r : VRow} {m : String} (h : m ∈ fmtErrs cfg r) :
    m = "Invalid email format" := by
  unfold fmtErrs at h
  split_ifs at h <;> simp_all

lemma mem_phoneCells {cfg : VCfg} {r : VRow} {p : String × Option (List Char)}
    (h : p ∈ phoneCells cfg r) :
    p.1 = "MOBILE" ∨ p.1 = "DIRECTPHONE" ∨ p.1 = "HOMEPHONE" := by
  have h3 : p ∈ (if cfg.hasMobile then [("MOBILE", r.mobile)] else []) ∨
      p ∈ (if cfg.hasDirect then [("DIRECTPHONE", r.direct)] else []) ∨
      p ∈ (if cfg.hasHome then [("HOMEPHONE", r.home)] else []) := by
    simpa [phoneCells] using h
  rcases h3 with h1 | h1 | h1
  · split at h1 <;> simp_all
  · split at h1 <;> simp_all
  · split at h1 <;> simp_all

lemma mem_phoneFmtErrs {cfg : VCfg} {r : VRow} {m : String} (h : m ∈ phoneFmtErrs cfg r) :
    m = "Invalid phone in MOBILE" ∨ m = "Invalid phone in DIRECTPHONE" ∨
    m = "Invalid phone in HOMEPHONE" := by
  unfold phoneFmtErrs at h
  rw [List.mem_flatten] at h
  obtain ⟨l, hl, hm⟩ := h
  rw [List.mem_map] at hl
  obtain ⟨p, hp, rfl⟩ := hl
  split at hm
  · have hm' : m = "Invalid phone in " ++ p.1 := by simpa using hm
    rcases mem_phoneCells hp with h1 | h1 | h1 <;> rw [h1] at hm' <;> simp [hm']
  · simp at hm

lemma missing_notin_req {cfg : VCfg} {r : VRow} : missingPhoneMsg ∉ reqErrs cfg r := by
  intro h
  rcases mem_reqErrs h with h | h | h | h <;> exact absurd h (by decide)

lemma missing_notin_fmt {cfg : VCfg} {r : VRow} : missingPhoneMsg ∉ fmtErrs cfg r := by
  intro h
  exact absurd (mem_fmtErrs h) (by decide)

lemma missing_notin_phoneFmt {cfg : VCfg} {r : VRow} : missingPhoneMsg ∉ phoneFmtErrs cfg r := by
  intro h
  rcases mem_phoneFmtErrs h with h | h | h <;> exact absurd h (by decide)

lemma validateRow_not_skip {cfg : VCfg} {r : VRow}
    (h : (allMissing cfg r || nullName cfg r) = false) :
    validateRow cfg r = reqErrs cfg r ++ fmtErrs cfg r ++ phoneFmtErrs cfg r ++
      (if phonePresentB cfg r then [] else [missingPhoneMsg]) := by
  unfold validateRow
  rw [if_neg (by simp [h])]

lemma criticalCount_ne_zero {es : List VErr} :
    criticalCount es ≠ 0 ↔ ∃ e ∈ es, ∃ m ∈ e.msgs, isCriticalMsg m = true := by
  unfold criticalCount
  rw [Ne, List.sum_eq_zero_iff]
  constructor
  · intro h
    push_neg at h
    obtain ⟨x, hx, hx0⟩ := h
    rw [List.mem_map] at hx
    obtain ⟨e, he, rfl⟩ := hx
    obtain ⟨m, hm, hcm⟩ := List.countP_pos_iff.mp (Nat.pos_of_ne_zero hx0)
    exact ⟨e, he, m, hm, hcm⟩
  · rintro ⟨e, he, m, hm, hcm⟩ hall
    have h0 := hall _ (List.mem_map_of_mem _ he)
    have hpos : 0 < e.msgs.countP (fun m => isCriticalMsg m) :=
      List.countP_pos_iff.mpr ⟨m, hm, hcm⟩
    omega

/- ### Claim theorems -/

/-- C1 (counterexample): two distinct records with an empty merge key (no
email, no name, no phone) do not remain their own singleton groups: the
deduplication step assigns both the literal key "-" and merges them into
a single output record, so the output has one row where the claim demands
two. -/
theorem C1_counterexample :
    emptyMergeKey b1 ∧ emptyMergeKey b2 ∧ b1 ≠ b2 ∧
    (deduplicate_contacts [b1, b2]).length = 1 := by decide

/-- C1 (amended): records with an empty merge key are not kept as
singleton groups; they all receive the same literal DEDUP_KEY "-" and are
therefore grouped and merged together by `deduplicate_contacts` (the
literal behaviour the spec flags in its design notes). -/
theorem C1_empty_key_shared : ∀ r1 r2 : CRow, emptyMergeKey r1 → emptyMergeKey r2 →
    dedupKey r1 = ['-'] ∧ dedupKey r1 = dedupKey r2 := by
  intro r1 r2 h1 h2
  obtain ⟨e1, f1, m1⟩ := h1
  obtain ⟨e2, f2, m2⟩ := h2
  constructor <;> simp [dedupKey, e1, e2, f1, f2, m1, m2]

/-- C1 (witness): the amended theorem applied to the two blank fixtures. -/
theorem C1_witness :
    emptyMergeKey b1 ∧ emptyMergeKey b2 ∧
    (dedupKey b1 = ['-'] ∧ dedupKey b1 = dedupKey b2) :=
  ⟨by decide, by decide, C1_empty_key_shared b1 b2 (by decide) (by decide)⟩

/-- C2 (counterexample): the claim's acceptance predicate (name agreement
by exact equality or fuzzy similarity at least 90) accepts the pair
`tC2`/`sC2` ("john smithe" vs "john smith", similarity 90, identical
email), but the code matches only one field exactly, rejects the
candidate, and produces zero fills — so acceptance is not the claimed
predicate. -/
theorem C2_counterexample :
    specAccept tC2 sC2 = true ∧ accepted tC2 sC2 = false ∧
    matchCount tC2 sC2 = 1 ∧ fill_from_source [tC2] [sC2] = [tC2] := by decide

/-- C2 (amended): a candidate is accepted if and only if it agrees with
the target on at least two of name, email, phone under exact normalized
string equality on all three fields (no fuzzy name comparison), and a
source list whose rows each agree on at most one field produces zero
fills. -/
theorem C2_exact_two_of_three : ∀ (t : TRow) (s : SRow) (srcs : List SRow),
    (accepted t s = true ↔
      ((pstrip t.name ≠ [] ∧ pstrip s.name = pstrip t.name) ∧
        (pstrip t.email ≠ [] ∧ pstrip s.email = pstrip t.email)) ∨
      ((pstrip t.name ≠ [] ∧ pstrip s.name = pstrip t.name) ∧
        (pstrip t.phone ≠ [] ∧ pstrip s.phone = pstrip t.phone)) ∨
      ((pstrip t.email ≠ [] ∧ pstrip s.email = pstrip t.email) ∧
        (pstrip t.phone ≠ [] ∧ pstrip s.phone = pstrip t.phone))) ∧
    ((∀ s' ∈ srcs, matchCount t s' ≤ 1) → fill_from_source [t] srcs = [t]) := by
  intro t s srcs
  constructor
  · unfold accepted matchCount
    by_cases h1 : pstrip t.name ≠ [] ∧ pstrip s.name = pstrip t.name <;>
    by_cases h2 : pstrip t.email ≠ [] ∧ pstrip s.email = pstrip t.email <;>
    by_cases h3 : pstrip t.phone ≠ [] ∧ pstrip s.phone = pstrip t.phone <;>
      simp [h1, h2, h3]
  · intro hle
    have hall : ∀ s' ∈ srcs.filter (isCand t), accepted t s' = false := by
      intro s' hs'
      have h1 := hle s' (List.mem_filter.mp hs').1
      unfold accepted
      simpa using by omega
    have hfix : fillRow t srcs = (t, false) := fillRowGo_noAccept t _ hall
    unfold fill_from_source
    by_cases hn : needsFill t = true <;> simp [hn, hfix]

/-- C2 (witness): a pair that agrees only on the phone yields zero fills. -/
theorem C2_witness :
    (∀ s' ∈ [sOneC2], matchCount tOneC2 s' ≤ 1) ∧
    fill_from_source [tOneC2] [sOneC2] = [tOneC2] :=
  ⟨by decide, (C2_exact_two_of_three tOneC2 sOneC2 [sOneC2]).2 (by decide)⟩

/-- C5 (counterexample): in one pass of the large/chunked filler, the
single table row receives FIRSTNAME "John" from source row `s1C5` (whose
last-name cell is empty) and LASTNAME "Smith" from source row `s2C5`
(whose first-name cell is empty): fields filled into one target in one
pass come from two different auxiliary records, so the first-accepted-
match-wins claim fails for this filler. -/
theorem C5_counterexample :
    largeFill [s1C5, s2C5] [dbC5] =
      [⟨[], "a@x.com".toList, "0412345678".toList, "John".toList, "Smith".toList,
        "A@x.com".toList, "0412345678".toList⟩] ∧
    s1C5.vfirst = some "John".toList ∧ s1C5.vlast = some [] ∧
    s2C5.vfirst = some [] ∧ s2C5.vlast = some "Smith".toList := by decide

/-- C5 (amended): in the in-memory filler `fill_from_source`, first
accepted-and-filling match wins: a processed target row is either
unchanged or equals the fill by exactly one accepted source row, so all
fields filled into one target in one pass come from a single auxiliary
record. (The large/chunked filler does not have this property; see the
counterexample.) -/
theorem C5_single_source_per_target : ∀ (t : TRow) (srcs : List SRow),
    fillRow t srcs = (t, false) ∨
    ∃ s ∈ srcs, accepted t s = true ∧
      fillRow t srcs = ({ t with vals := (fillVals t.vals s.vals).1 }, true) := by
  intro t srcs
  rcases fillRowGo_cases t (srcs.filter (isCand t)) with h | ⟨s, hs, ha, h⟩
  · left; exact h
  · right; exact ⟨s, (List.mem_filter.mp hs).1, ha, h⟩

/-- C6: the normalizers are total functions mapping NaN and the empty
string to the empty value, and the email cleaner yields the absent value
(`pd.NA`, the pipeline's empty representation) whenever the stripped,
lower-cased text does not match the email pattern. -/
theorem C6_normalizers_total : ∀ v : Option (List Char),
    normalize_value none = [] ∧ normalize_value (some []) = [] ∧
    normalize_phone none = [] ∧ normalize_phone (some []) = [] ∧
    clean_email none = none ∧ clean_email (some []) = none ∧
    (emailMatch (plower (pstrip (cellStr v))) = false → clean_email v = none) := by
  intro v
  refine ⟨rfl, by decide, rfl, by decide, by decide, by decide, fun h => ?_⟩
  simp [clean_email, h]

/-- C6 (witness): the non-email text "bad-email" is cleaned to the absent
value. -/
theorem C6_witness :
    emailMatch (plower (pstrip (cellStr (some "bad-email".toList)))) = false ∧
    clean_email (some "bad-email".toList) = none :=
  ⟨by decide, (C6_normalizers_total (some "bad-email".toList)).2.2.2.2.2.2 (by decide)⟩

/-- C7: for every input, the output of `normalize_phone` consists of digit
characters only, and `normalize_phone` is idempotent. -/
theorem C7_phone_digits_idempotent : ∀ v : Option (List Char),
    (normalize_phone v).all Char.isDigit = true ∧
    normalize_phone (some (normalize_phone v)) = normalize_phone v := by
  intro v
  exact ⟨List.all_eq_true.mpr (normalize_phone_all_digits v), normalize_phone_idem v⟩

lemma mem_validateRow_not_skip {cfg : VCfg} {r : VRow} {m : String}
    (h : (allMissing cfg r || nullName cfg r) = false) :
    m ∈ validateRow cfg r ↔
      (m ∈ reqErrs cfg r ∨ m ∈ fmtErrs cfg r ∨ m ∈ phoneFmtErrs cfg r ∨
        m ∈ (if phonePresentB cfg r then ([] : List String) else [missingPhoneMsg])) := by
  rw [validateRow_not_skip h]
  simp [List.mem_append]

/-- C3: the Cross-Source Filler never overwrites a non-empty target field:
in both the in-memory and the large/chunked variant, every mapped field
that is non-empty before a fill pass has the same value after it. -/
theorem C3_fill_never_overwrites :
    (∀ (ts : List TRow) (srcs : List SRow) (i j : Nat) (v : List Char),
      (ts[i]?.bind fun t => t.vals[j]?) = some v → v ≠ [] →
      ((fill_from_source ts srcs)[i]?.bind fun t => t.vals[j]?) = some v) ∧
    (∀ (srcs : List LSrcRow) (db : List DRow) (i : Nat) (r : DRow),
      db[i]? = some r → ∃ r', (largeFill srcs db)[i]? = some r' ∧
        (r.first ≠ [] → r'.first = r.first) ∧ (r.last ≠ [] → r'.last = r.last) ∧
        (r.email ≠ [] → r'.email = r.email) ∧ (r.mobile ≠ [] → r'.mobile = r.mobile)) := by
  constructor
  · intro ts srcs i j v h hv
    cases hts : ts[i]? with
    | none => rw [hts] at h; simp at h
    | some t =>
      rw [hts] at h
      simp only [Option.some_bind] at h
      unfold fill_from_source
      rw [List.getElem?_map, hts, Option.map_some']
      by_cases hn : needsFill t = true
      · simp only [hn, if_true, Option.some_bind]
        exact fillRowGo_keep t _ j v h hv
      · simp only [hn, if_false, Option.some_bind]
        simpa [hn] using h
  · intro srcs db i r h
    obtain ⟨r', h', k⟩ := largeFill_keep srcs db i r h
    exact ⟨r', h', k.1, k.2.1, k.2.2.1, k.2.2.2⟩

/-- C3 (witness): the target `tC3` has a non-empty first mapped field
"keep"; after a pass against the accepted candidate `sC3` (which fills the
second, empty field) the first field still holds "keep". -/
theorem C3_witness :
    (([tC3][0]?.bind fun t => t.vals[0]?) = some "keep".toList) ∧
    "keep".toList ≠ [] ∧
    (((fill_from_source [tC3] [sC3])[0]?.bind fun t => t.vals[0]?) = some "keep".toList) :=
  ⟨by decide, by decide,
    C3_fill_never_overwrites.1 [tC3] [sC3] 0 0 "keep".toList (by decide) (by decide)⟩

/-- C4 (counterexample): a row missing only its email value produces the
message "Missing EMAIL", which the run does not classify as critical: the
run with this single error reports success (exit 0), while the claim says
a missing email is critical and must cause failure. -/
theorem C4_counterexample :
    validateRow fullCfg rowMissingEmail = ["Missing EMAIL"] ∧
    isCriticalMsg "Missing EMAIL" = false ∧
    (runValidation fullCfg [rowMissingEmail]).success = true ∧
    (runValidation fullCfg [rowMissingEmail]).exitCode = 0 := by decide

/-- C4 (amended): the validation report is always produced, the run exits
non-zero exactly when some reported message is critical, and a message is
critical exactly when its lower-cased text contains "invalid email format"
or "missing email column" — so "Invalid email format" and "Missing EMAIL
column" are critical while a missing email value ("Missing EMAIL") and all
other messages are data-quality only. -/
theorem C4_critical_classification : ∀ (cfg : VCfg) (rows : List VRow),
    (runValidation cfg rows).report = allErrors cfg rows ∧
    ((runValidation cfg rows).exitCode ≠ 0 ↔
      ∃ e ∈ allErrors cfg rows, ∃ m ∈ e.msgs, isCriticalMsg m = true) ∧
    isCriticalMsg "Invalid email format" = true ∧
    isCriticalMsg "Missing EMAIL column" = true ∧
    isCriticalMsg "Missing EMAIL" = false ∧
    isCriticalMsg "Missing FIRSTNAME" = false ∧
    isCriticalMsg "Missing LASTNAME" = false ∧
    isCriticalMsg missingPhoneMsg = false ∧
    isCriticalMsg "Invalid phone in MOBILE" = false ∧
    isCriticalMsg "Invalid phone in DIRECTPHONE" = false ∧
    isCriticalMsg "Invalid phone in HOMEPHONE" = false := by
  intro cfg rows
  have key := @criticalCount_ne_zero (allErrors cfg rows)
  refine ⟨rfl, ?_, by decide, by decide, by decide, by decide, by decide, by decide,
    by decide, by decide, by decide⟩
  by_cases h : criticalCount (allErrors cfg rows) = 0
  · have hex : (runValidation cfg rows).exitCode = 0 := by simp [runValidation, h]
    rw [hex]
    constructor
    · intro h0; exact absurd rfl h0
    · intro hex2; exact absurd h (key.mpr hex2)
  · have hex : (runValidation cfg rows).exitCode = 1 := by simp [runValidation, h]
    rw [hex]
    constructor
    · intro _; exact key.mp h
    · intro _; exact one_ne_zero

/-- C9: the validator skips a row entirely, emitting no error of any kind,
whenever the composed display full name is empty, "nan" or "nan nan"
after trimming and lower-casing, regardless of the other cells. -/
theorem C9_null_name_skipped : ∀ (cfg : VCfg) (r : VRow),
    (fullNameOf cfg r = [] ∨ plower (fullNameOf cfg r) = nanNanChars ∨
      plower (fullNameOf cfg r) = nanChars) →
    validateRow cfg r = [] := by
  intro cfg r h
  have hn : nullName cfg r = true := by
    unfold nullName
    rcases h with h | h | h <;> simp [h]
  unfold validateRow
  rw [if_pos (by simp [hn])]

/-- C9 (witness): a row whose name lowers to "nan" is skipped even though
its email and phone cells are populated and valid. -/
theorem C9_witness :
    (fullNameOf fullCfg rowNanName = [] ∨
      plower (fullNameOf fullCfg rowNanName) = nanNanChars ∨
      plower (fullNameOf fullCfg rowNanName) = nanChars) ∧
    validateRow fullCfg rowNanName = [] :=
  ⟨by decide, C9_null_name_skipped fullCfg rowNanName (by decide)⟩

/-- C10: for a non-skipped row, the missing-phone error appears exactly
when every phone-role column is empty or textually "nan"; a populated
phone value with invalid format counts as present: it yields the
per-column invalid-phone error and never additionally the missing-phone
error. -/
theorem C10_phone_presence : ∀ (cfg : VCfg) (r : VRow),
    (allMissing cfg r || nullName cfg r) = false →
    ((missingPhoneMsg ∈ validateRow cfg r ↔ phonePresentB cfg r = false) ∧
     (phonePresentB cfg r = false ↔
       ∀ p ∈ phoneCells cfg r,
         pstrip (cellStr p.2) = [] ∨ plower (pstrip (cellStr p.2)) = nanChars) ∧
     (∀ p ∈ phoneCells cfg r, pstrip (cellStr p.2) ≠ [] →
       plower (pstrip (cellStr p.2)) ≠ nanChars →
       validate_phone (pstrip (cellStr p.2)) = false →
       ("Invalid phone in " ++ p.1) ∈ validateRow cfg r ∧
         missingPhoneMsg ∉ validateRow cfg r)) := by
  intro cfg r hskip
  have memch : ∀ m : String, m ∈ validateRow cfg r ↔
      (m ∈ reqErrs cfg r ∨ m ∈ fmtErrs cfg r ∨ m ∈ phoneFmtErrs cfg r ∨
        m ∈ (if phonePresentB cfg r then ([] : List String) else [missingPhoneMsg])) :=
    fun m => mem_validateRow_not_skip hskip
  refine ⟨?_, ?_, ?_⟩
  · constructor
    · intro hm
      rcases (memch missingPhoneMsg).mp hm with h1 | h1 | h1 | h1
      · exact absurd h1 missing_notin_req
      · exact absurd h1 missing_notin_fmt
      · exact absurd h1 missing_notin_phoneFmt
      · cases hp : phonePresentB cfg r
        · rfl
        · rw [hp] at h1; simp at h1
    · intro hp
      exact (memch missingPhoneMsg).mpr (Or.inr (Or.inr (Or.inr (by rw [hp]; simp))))
  · constructor
    · intro hp p hpmem
      by_contra hcon
      push_neg at hcon
      have hpres : phonePresentB cfg r = true :=
        List.any_eq_true.mpr ⟨p, hpmem, by
          simp only [Bool.and_eq_true, bne_iff_ne]
          exact ⟨hcon.1, hcon.2⟩⟩
      rw [hp] at hpres
      exact Bool.noConfusion hpres
    · intro hall
      by_contra hcon
      rw [Bool.not_eq_false] at hcon
      obtain ⟨p, hpmem, hpred⟩ := List.any_eq_true.mp hcon
      simp only [Bool.and_eq_true, bne_iff_ne] at hpred
      rcases hall p hpmem with h | h
      · exact hpred.1 h
      · exact hpred.2 h
  · intro p hpmem hne hnan hbad
    have hpres : phonePresentB cfg r = true :=
      List.any_eq_true.mpr ⟨p, hpmem, by
        simp only [Bool.and_eq_true, bne_iff_ne]
        exact ⟨hne, hnan⟩⟩
    constructor
    · refine (memch _).mpr (Or.inr (Or.inr (Or.inl ?_)))
      unfold phoneFmtErrs
      rw [List.mem_flatten]
      refine ⟨_, List.mem_map_of_mem _ hpmem, ?_⟩
      rw [if_pos ⟨hne, hnan, hbad⟩]
      simp
    · intro hm
      rcases (memch missingPhoneMsg).mp hm with h1 | h1 | h1 | h1
      · exact missing_notin_req h1
      · exact missing_notin_fmt h1
      · exact missing_notin_phoneFmt h1
      · rw [hpres] at h1; simp at h1

/-- C10 (witness): the theorem applied to a row whose MOBILE holds the
invalid 5-digit value "12345": the row is not skipped, the phone counts as
present, the invalid-phone error is emitted and the missing-phone error is
not. -/
theorem C10_witness :
    (allMissing fullCfg rowBadPhone || nullName fullCfg rowBadPhone) = false ∧
    ((missingPhoneMsg ∈ validateRow fullCfg rowBadPhone ↔
        phonePresentB fullCfg rowBadPhone = false) ∧
     (phonePresentB fullCfg rowBadPhone = false ↔
       ∀ p ∈ phoneCells fullCfg rowBadPhone,
         pstrip (cellStr p.2) = [] ∨ plower (pstrip (cellStr p.2)) = nanChars) ∧
     (∀ p ∈ phoneCells fullCfg rowBadPhone, pstrip (cellStr p.2) ≠ [] →
       plower (pstrip (cellStr p.2)) ≠ nanChars →
       validate_phone (pstrip (cellStr p.2)) = false →
       ("Invalid phone in " ++ p.1) ∈ validateRow fullCfg rowBadPhone ∧
         missingPhoneMsg ∉ validateRow fullCfg rowBadPhone)) :=
  ⟨by decide, C10_phone_presence fullCfg rowBadPhone (by decide)⟩

end Contacts
